import Mathlib

/-!
Verification development for the neuralmonkey decoder
(`neuralmonkey/decoders/decoder.py`) and the sequence regressor
(`neuralmonkey/decoders/sequence_regressor.py`).

The TensorFlow graph is shallowly embedded per batch example: all
elementwise batched operations (`tf.argmax(axis=1)`, `tf.logical_or`,
`tf.logical_not`) act row-wise, so one batch row is modelled at a time.
Logit rows are `List Int`; embeddings, recurrent states and attention
contexts are abstract type parameters, since the claims under study do
not depend on their numeric contents.
-/

namespace NeuralMonkey

/-- Index of the first maximum of a row, mirroring `tf.argmax` (ties are
broken towards the smallest index).  Auxiliary accumulator: `i` is the
index of the next element, `bi`/`bv` the best index and value so far. -/
def argmaxAux : List Int → Nat → Nat → Int → Nat
  | [], _, bi, _ => bi
  | x :: xs, i, bi, bv =>
    if bv < x then argmaxAux xs (i + 1) i x else argmaxAux xs (i + 1) bi bv

/-- `tf.argmax` on one row of logits.  The empty row is mapped to 0
(it never arises: rows have vocabulary length). -/
def argmaxIdx : List Int → Nat
  | [] => 0
  | x :: xs => argmaxAux xs 1 0 x

theorem argmaxAux_lt (xs : List Int) :
    ∀ i bi bv, bi < i → argmaxAux xs i bi bv < i + xs.length := by
  induction xs with
  | nil =>
    intro i bi bv h
    simpa [argmaxAux] using Nat.lt_of_lt_of_le h (Nat.le_add_right i 0)
  | cons x xs ih =>
    intro i bi bv h
    simp only [argmaxAux]
    by_cases hx : bv < x
    · simp only [hx, if_true]
      have := ih (i + 1) i x (Nat.lt_succ_self i)
      simpa [Nat.add_comm, Nat.add_assoc, Nat.add_left_comm] using this
    · simp only [hx, if_false]
      have := ih (i + 1) bi bv (Nat.lt_succ_of_lt h)
      simpa [Nat.add_comm, Nat.add_assoc, Nat.add_left_comm] using this

theorem argmaxIdx_lt_length (l : List Int) (h : l ≠ []) :
    argmaxIdx l < l.length := by
  cases l with
  | nil => exact absurd rfl h
  | cons x xs =>
    have := argmaxAux_lt xs 1 0 x (Nat.zero_lt_one)
    simpa [argmaxIdx, Nat.add_comm] using this

/-- Per-step decoded token id, from `decoder.py` line 217:
`tf.argmax(logit[:, 1:], 1) + 1` applied to one batch row. -/
def decodedTok (l : List Int) : Nat := argmaxIdx (l.drop 1) + 1

/-- The decoded token sequence, `decoder.py` lines 217-218:
`self.decoded = [tf.argmax(logit[:, 1:], 1) + 1 for logit in
self.runtime_logits]`, per batch row. -/
def decoded (runtimeLogits : List (List Int)) : List Nat :=
  runtimeLogits.map decodedTok

/-- The environment of `Decoder._decoding_loop` for one batch row.
`τ` is the type of embedded inputs, `σ` the recurrent-state type
(a single vector for GRU, a pair for LSTM), `ctx` the attention-context
type.  `step` abstracts `Decoder.step` applied to the fixed list of
attention objects of the current mode; `trainInputs i` is row `i` of
`embedded_train_inputs` (already embedded and dropped out at graph
construction, line 165); `goEmbedding` is the row of
`embedded_go_symbols` (line 169, an embedding lookup with no dropout);
`embedAndDropout` is `Decoder.embed_and_dropout` applied to a token id
(line 421). -/
structure LoopEnv (τ σ ctx : Type) where
  maxOutputLen : Nat
  endTokenIndex : Nat
  goEmbedding : τ
  trainInputs : Nat → τ
  embedAndDropout : Nat → τ
  step : τ → σ → List ctx → List Int × σ × List ctx
  initialState : σ
  initialAttns : List ctx

/-- The body of the unrolled loop of `Decoder._decoding_loop`
(lines 409-434), one batch row.  `i` is the loop counter, the second
argument the remaining number of steps, `prevLogits` the previous
step logits (`None` exactly at `i = 0`), then the threaded state,
attention contexts and `finished` flag.  Returns `(logits, states,
mask)` exactly as the source does: the mask entry is
`tf.logical_not(finished)` recorded AFTER `finished` has been updated
with the current step's argmax (lines 427-431). -/
def decodingLoopGo {τ σ ctx : Type} (e : LoopEnv τ σ ctx) (trainMode : Bool) :
    Nat → Nat → Option (List Int) → σ → List ctx → Bool →
      List (List Int) × List σ × List Bool
  | _, 0, _, _, _, _ => ([], [], [])
  | i, Nat.succ n, prevLogits, state, attns, finished =>
    let inp : τ :=
      match prevLogits with
      | none => e.goEmbedding
      | some sl =>
        if trainMode then e.trainInputs (i - 1)
        else e.embedAndDropout (argmaxIdx sl)
    let r := e.step inp state attns
    let stepLogits := r.1
    let hasJustFinished := argmaxIdx stepLogits == e.endTokenIndex
    let finished2 := hasJustFinished || finished
    let rest :=
      decodingLoopGo e trainMode (i + 1) n (some stepLogits) r.2.1 r.2.2 finished2
    (stepLogits :: rest.1, r.2.1 :: rest.2.1, (!finished2) :: rest.2.2)

/-- `Decoder._decoding_loop` for one batch row: `finished` starts
false, `step_logits` starts `None`, the loop runs `max_output_len`
steps (lines 399-436). -/
def decodingLoop {τ σ ctx : Type} (e : LoopEnv τ σ ctx) (trainMode : Bool) :
    List (List Int) × List σ × List Bool :=
  decodingLoopGo e trainMode 0 e.maxOutputLen none e.initialState e.initialAttns false

/-- Specification of the mask trace produced from a logits trace and an
incoming `finished` flag, following lines 427-431 of the source. -/
def maskSpec (endIdx : Nat) : Bool → List (List Int) → List Bool
  | _, [] => []
  | f, l :: ls =>
    let f2 := (argmaxIdx l == endIdx) || f
    (!f2) :: maskSpec endIdx f2 ls

theorem decodingLoopGo_mask_eq_maskSpec {τ σ ctx : Type}
    (e : LoopEnv τ σ ctx) (tm : Bool) :
    ∀ n i pl st at0 f,
      (decodingLoopGo e tm i n pl st at0 f).2.2 =
        maskSpec e.endTokenIndex f (decodingLoopGo e tm i n pl st at0 f).1 := by
  intro n
  induction n with
  | zero => intro i pl st at0 f; simp [decodingLoopGo, maskSpec]
  | succ n ih =>
    intro i pl st at0 f
    simp only [decodingLoopGo, maskSpec]
    exact congrArg _ (ih (i + 1) _ _ _ _)

theorem decodingLoopGo_logits_length {τ σ ctx : Type}
    (e : LoopEnv τ σ ctx) (tm : Bool) :
    ∀ n i pl st at0 f,
      (decodingLoopGo e tm i n pl st at0 f).1.length = n := by
  intro n
  induction n with
  | zero => intro i pl st at0 f; simp [decodingLoopGo]
  | succ n ih =>
    intro i pl st at0 f
    simp [decodingLoopGo, ih]

theorem maskSpec_length (endIdx : Nat) :
    ∀ (ls : List (List Int)) (f : Bool), (maskSpec endIdx f ls).length = ls.length := by
  intro ls
  induction ls with
  | nil => intro f; simp [maskSpec]
  | cons l ls ih => intro f; simp [maskSpec, ih]

theorem maskSpec_get (endIdx : Nat) :
    ∀ (ls : List (List Int)) (f : Bool) (t : Nat), t < ls.length →
      (maskSpec endIdx f ls)[t]? =
        some (!(f || (ls.take (t + 1)).any fun l => argmaxIdx l == endIdx)) := by
  intro ls
  induction ls with
  | nil => intro f t h; exact absurd h (Nat.not_lt_zero t)
  | cons l ls ih =>
    intro f t h
    cases t with
    | zero =>
      simp [maskSpec, Bool.or_comm]
    | succ t =>
      have ht : t < ls.length := Nat.lt_of_succ_lt_succ h
      simp only [maskSpec, List.getElem?_cons_succ]
      rw [ih ((argmaxIdx l == endIdx) || f) t ht]
      congr 1
      simp [Bool.or_comm, Bool.or_assoc, Bool.or_left_comm]

/-- For every mode, the mask entry at step `t` is the negation of the
`finished` flag as updated with step `t`'s own argmax: it is false as
soon as some step `s ≤ t` produced the end token. -/
theorem decodingLoop_mask_get {τ σ ctx : Type}
    (e : LoopEnv τ σ ctx) (tm : Bool) (t : Nat) (h : t < e.maxOutputLen) :
    (decodingLoop e tm).2.2[t]? =
      some (!(((decodingLoop e tm).1.take (t + 1)).any
        fun l => argmaxIdx l == e.endTokenIndex)) := by
  unfold decodingLoop
  rw [decodingLoopGo_mask_eq_maskSpec]
  have hlen : (decodingLoopGo e tm 0 e.maxOutputLen none e.initialState
      e.initialAttns false).1.length = e.maxOutputLen :=
    decodingLoopGo_logits_length e tm e.maxOutputLen 0 none _ _ false
  rw [maskSpec_get e.endTokenIndex _ false t (by rw [hlen]; exact h)]
  simp

/-- The environment of `Decoder.step` (lines 322-367), one batch row;
the trainable layers are abstract functions.  `linear` is
`neuralmonkey.nn.projection.linear` applied to a list of tensors and an
output size; `cell` the base recurrent cell; `condGruCell` the second
cell of the conditional-GRU architecture; `queryGru`/`queryLstmC`
extract the attention query from the previous state (the state itself
for GRU, its `.c` memory component for LSTM); `attObjs` the active
attention objects of the current mode, each mapping
`(cell_output, query, x)` to a context vector; `logitFn` is
`Decoder._logit_function` (dropout plus the affine vocabulary map). -/
structure StepEnv (τ σ : Type) where
  cellStr : String
  conditionalGru : Bool
  attentionOnInput : Bool
  embeddingSize : Nat
  rnnOutputSize : Nat
  linear : List τ → Nat → τ
  cell : τ → σ → τ × σ
  condGruCell : τ → σ → τ × σ
  queryGru : σ → τ
  queryLstmC : σ → τ
  concatLast : List τ → τ
  logitFn : τ → τ
  attObjs : List (τ → τ → τ → τ)

/-- `Decoder.step`, lines 322-367: input fusion when
`attention_on_input` is set, the base cell, the attention queries
(branching on the cell kind, raising on any other kind), the optional
conditional-GRU second cell (guarded by `conditional_gru` AND the
`"GRU"` cell kind, line 351), the output projection applied only when
the attention-context list is nonempty, then the logit layer. -/
def StepEnv.step {τ σ : Type} (e : StepEnv τ σ)
    (input : τ) (prevState : σ) (prevAttns : List τ) :
    Except String (τ × σ × List τ) :=
  let x := if e.attentionOnInput then e.linear (input :: prevAttns) e.embeddingSize
           else input
  let c1 := e.cell x prevState
  let attnsE : Except String (List τ) :=
    if e.cellStr = "GRU" then
      Except.ok (e.attObjs.map fun a => a c1.1 (e.queryGru prevState) x)
    else if e.cellStr = "LSTM" then
      Except.ok (e.attObjs.map fun a => a c1.1 (e.queryLstmC prevState) x)
    else Except.error "Unknown RNN cell."
  match attnsE with
  | Except.error s => Except.error s
  | Except.ok attns =>
    let c2 := if e.conditionalGru && (e.cellStr == "GRU")
              then e.condGruCell (e.concatLast attns) c1.2
              else c1
    let output := if attns.isEmpty then c2.1
                  else e.linear (c2.1 :: attns) e.rnnOutputSize
    Except.ok (e.logitFn output, c2.2, attns)

/-- An input encoder, reduced to what the constructor reads from it:
the width of its `encoded` summary vector
(`e.encoded.get_shape()[1].value`, line 128). -/
structure Encoder where
  encodedWidth : Nat

/-- An `EmbeddedSequence` to borrow embeddings from, reduced to its
`embedding_matrix`.  `M` is an abstract matrix type; equality of `M`
values models object identity of the shared matrix. -/
structure EmbeddedSequence (M : Type) where
  embedding_matrix : M

/-- The encoder-projection policy resolved by the constructor
(lines 120-133). -/
inductive EncoderProjectionPolicy
  | custom
  | emptyInitial
  | concatEncoders
  | linearEncoders
deriving DecidableEq, Repr

/-- The fatal construction errors of `Decoder.__init__`:
the missing-embedding-information `ValueError` (line 107), the
`assert self.rnn_size is not None` (line 135), and the unknown-cell
`ValueError` (line 138). -/
inductive DecoderError
  | missingEmbeddingInfo
  | rnnSizeUnresolved
  | unknownRnnCell
deriving DecidableEq, Repr

/-- The constructor arguments of `Decoder.__init__` that its validation
and resolution logic reads.  `encoder_projection_given` and
`output_projection_given` record whether the optional callables were
passed. -/
structure DecoderConfig (M : Type) where
  encoders : List Encoder
  rnn_size : Option Nat
  embedding_size : Option Nat
  embeddings_source : Option (EmbeddedSequence M)
  encoder_projection_given : Bool
  output_projection_given : Bool
  rnn_cell : String
  conditional_gru : Bool

/-- The fields of a successfully constructed decoder that the claims
read.  `embedding_matrix_source = some m` means the embedding matrix is
the borrowed matrix `m` of the embeddings source
(`_create_embedding_matrix`, line 291); `none` means a freshly
initialized own variable (line 287). -/
structure ResolvedDecoder (M : Type) where
  embedding_size : Nat
  embedding_matrix_source : Option M
  rnn_size : Nat
  encoder_projection : EncoderProjectionPolicy
  uses_default_output_projection : Bool
  rnn_cell : String
  conditional_gru : Bool
  warnings : List String

/-- The warning logged when a locally configured `embedding_size` is
overridden by a borrowed embeddings source (lines 113-115). -/
def overrideWarning : String :=
  "Overriding the embedding_size parameter with the size of the reused embeddings from the encoder."

/-- The validation and resolution logic of `Decoder.__init__`
(lines 106-142), in source order: the missing-embedding check, the
embeddings-source override (taking `embedding_size` from the borrowed
matrix, `cols` standing for `get_shape()[1].value`), the
encoder-projection resolution with its `rnn_size` side effect
(summing encoder widths when concatenating), the `rnn_size` assertion,
the cell-kind check against the keys of `RNN_CELL_TYPES`, and the
default output projection. -/
def initDecoder {M : Type} (cols : M → Nat) (cfg : DecoderConfig M) :
    Except DecoderError (ResolvedDecoder M) :=
  match cfg.embedding_size, cfg.embeddings_source with
  | none, none => Except.error DecoderError.missingEmbeddingInfo
  | es, src =>
    let warnings : List String :=
      match src, es with
      | some _, some _ => [overrideWarning]
      | _, _ => []
    let embSizeO : Option Nat :=
      match src with
      | some s => some (cols s.embedding_matrix)
      | none => es
    let pr : EncoderProjectionPolicy × Option Nat :=
      if cfg.encoder_projection_given then
        (EncoderProjectionPolicy.custom, cfg.rnn_size)
      else if cfg.encoders.isEmpty then
        (EncoderProjectionPolicy.emptyInitial, cfg.rnn_size)
      else
        match cfg.rnn_size with
        | none => (EncoderProjectionPolicy.concatEncoders,
                   some ((cfg.encoders.map Encoder.encodedWidth).sum))
        | some n => (EncoderProjectionPolicy.linearEncoders, some n)
    match pr.2 with
    | none => Except.error DecoderError.rnnSizeUnresolved
    | some rs =>
      if cfg.rnn_cell = "GRU" ∨ cfg.rnn_cell = "LSTM" then
        match embSizeO with
        | some esv =>
          Except.ok
            { embedding_size := esv
              embedding_matrix_source := src.map EmbeddedSequence.embedding_matrix
              rnn_size := rs
              encoder_projection := pr.1
              uses_default_output_projection := !cfg.output_projection_given
              rnn_cell := cfg.rnn_cell
              conditional_gru := cfg.conditional_gru
              warnings := warnings }
        | none => Except.error DecoderError.missingEmbeddingInfo
      else Except.error DecoderError.unknownRnnCell

/-- A tensor of rank 1 or rank 2, the only ranks
`Decoder._create_initial_state` distinguishes (line 273). -/
inductive Tensor
  | rank1 (v : List Int)
  | rank2 (m : List (List Int))
deriving DecidableEq, Repr

/-- An elementwise map over a tensor; `tf`'s dropout is elementwise
(each entry is kept and rescaled or zeroed), so one realization of it
is an elementwise map, which preserves the shape by construction. -/
def Tensor.emap (f : Int → Int) : Tensor → Tensor
  | Tensor.rank1 v => Tensor.rank1 (v.map f)
  | Tensor.rank2 m => Tensor.rank2 (m.map (List.map f))

/-- `tf.reshape(v, [-1, w])` on a flat vector: the first argument is
the number of rows, `v.length / w`. -/
def reshapeRows : Nat → Nat → List Int → List (List Int)
  | 0, _, _ => []
  | Nat.succ k, w, v => v.take w :: reshapeRows k w (v.drop w)

/-- `Decoder._create_initial_state` (lines 254-277): dropout is applied
to the encoder projection's result; if the result has rank 1 it is
asserted to have size `rnn_size`, tiled `batch_size` times
(`tf.tile(initial_state, tf.expand_dims(batch_size, 0))`) and reshaped
to `[-1, rnn_size]`; a rank-2 result is used as is. -/
def createInitialState (rnnSize batchSize : Nat) (dropF : Int → Int)
    (proj : Tensor) : Except String Tensor :=
  match proj.emap dropF with
  | Tensor.rank1 v =>
    if v.length = rnnSize then
      let tiles := (List.replicate batchSize v).flatten
      Except.ok (Tensor.rank2 (reshapeRows (tiles.length / rnnSize) rnnSize tiles))
    else Except.error "assert init_state_shape[0].value == self.rnn_size"
  | Tensor.rank2 m => Except.ok (Tensor.rank2 m)

/-- The attribute names assigned on `self` by
`SequenceRegressor.__init__` (`sequence_regressor.py`, lines 33-57). -/
def sequenceRegressorInitAttrs : List String :=
  ["encoders", "data_id", "layers", "activation", "dropout_keep_prob",
   "max_output_len", "learning_step", "dropout_placeholder", "gt_inputs",
   "prediction", "cost"]

/-- Modelled from the spec: the attribute names assigned by the
`ModelPart` base constructor, whose module is outside the covered
sources; `SequenceRegressor.__init__` calls
`ModelPart.__init__(self, name, save_checkpoint, load_checkpoint)`
(line 31), which per the spec records the component name and the
checkpoint persistence paths and nothing else relevant. -/
def modelPartAttrs : List String :=
  ["name", "save_checkpoint", "load_checkpoint"]

/-- The property names defined on the `SequenceRegressor` class
(lines 67-77). -/
def sequenceRegressorProps : List String :=
  ["train_loss", "runtime_loss", "decoded"]

/-- Every name a constructed `SequenceRegressor` can resolve: instance
attributes from both constructors plus class-level properties. -/
def sequenceRegressorAttrs : List String :=
  modelPartAttrs ++ sequenceRegressorInitAttrs ++ sequenceRegressorProps

/-- The result of a Python attribute read: the attribute resolves, or
an `AttributeError` naming the missing attribute is raised. -/
inductive PyAttrResult
  | resolves (a : String)
  | attributeError (a : String)
deriving DecidableEq, Repr

/-- Reading `name` on a constructed `SequenceRegressor`. -/
def getattrSequenceRegressor (name : String) : PyAttrResult :=
  if name ∈ sequenceRegressorAttrs then PyAttrResult.resolves name
  else PyAttrResult.attributeError name

/-- The body of the `decoded` property (lines 75-77): it returns
`self.decoded_logit`, i.e. reads the attribute `decoded_logit`. -/
def sequenceRegressorDecoded : PyAttrResult :=
  getattrSequenceRegressor "decoded_logit"

/-- The embedding wiring the constructor sets up: `lookup` is
`tf.nn.embedding_lookup(self.embedding_matrix, ...)` on one token id,
`dropoutF` one realization of `dropout(..., dropout_keep_prob,
train_mode)` from `neuralmonkey.nn.utils`. -/
structure EmbeddingEnv (τ : Type) where
  lookup : Nat → τ
  dropoutF : τ → τ

/-- `Decoder.embed_and_dropout` (lines 293-304): embedding lookup
followed by dropout. -/
def EmbeddingEnv.embedAndDropout {τ : Type} (emb : EmbeddingEnv τ) (i : Nat) : τ :=
  emb.dropoutF (emb.lookup i)

/-- The loop environment as the constructor wires it (lines 163-203):
`goEmbedding` is a bare embedding lookup of the start symbol with no
dropout (lines 168-170), `trainInputs i` is the embed-and-dropout of
the `i`-th target token (lines 165-166), and the runtime feedback path
uses `embed_and_dropout` (line 421). -/
def mkLoopEnv {τ σ ctx : Type} (emb : EmbeddingEnv τ) (goSymbol : Nat)
    (trainTokens : Nat → Nat)
    (stepF : τ → σ → List ctx → List Int × σ × List ctx)
    (s0 : σ) (a0 : List ctx) (T endIdx : Nat) : LoopEnv τ σ ctx :=
  { maxOutputLen := T
    endTokenIndex := endIdx
    goEmbedding := emb.lookup goSymbol
    trainInputs := fun i => emb.embedAndDropout (trainTokens i)
    embedAndDropout := emb.embedAndDropout
    step := stepF
    initialState := s0
    initialAttns := a0 }

/-- A loop environment in which every step's argmax hits the end-token
index (logit row `[0, 10]`, argmax 1 = end token): the round-trip
scenario of an all-end-token decode with `max_output_len = 5`. -/
def envAllEnd : LoopEnv Unit Unit Unit :=
  { maxOutputLen := 5
    endTokenIndex := 1
    goEmbedding := ()
    trainInputs := fun _ => ()
    embedAndDropout := fun _ => ()
    step := fun _ _ _ => ([0, 10], (), [])
    initialState := ()
    initialAttns := [] }

/-- Reshaping the concatenation of `b` copies of a row of width `w`
recovers the `b` rows. -/
theorem reshapeRows_flatten_replicate (u : List Int) (w : Nat) (hw : u.length = w) :
    ∀ b : Nat, reshapeRows b w (List.replicate b u).flatten = List.replicate b u := by
  intro b
  induction b with
  | zero => simp [reshapeRows]
  | succ b ih =>
    rw [List.replicate_succ, List.flatten_cons, reshapeRows]
    rw [← hw, List.take_left, List.drop_left]
    rw [hw, ih]

/-- C1 (counterexample): in the all-end-token scenario with
`max_output_len = 5`, in both execution modes, the recorded mask is
`[0,0,0,0,0]`, not the `[1,0,0,0,0]` the claim predicts: the mask entry
is recorded AFTER `finished` is updated with the step's own argmax, so
the step at which the end token first appears is itself masked out. -/
theorem C1_mask_counterexample :
    (decodingLoop envAllEnd true).2.2 = [false, false, false, false, false] ∧
    (decodingLoop envAllEnd false).2.2 = [false, false, false, false, false] ∧
    ([false, false, false, false, false] : List Bool) ≠
      [true, false, false, false, false] := by
  refine ⟨by decide, by decide, by decide⟩

/-- C1 (amended): for every execution mode and every step
`t < max_output_len`, the mask entry at step `t` equals
NOT(finished-AFTER-the-update): it is false exactly when some step
`s ≤ t` already produced the end token as its argmax, so the step at
which the end token first appears is itself masked out; in the
all-end-token scenario with `max_output_len = 5` the recorded mask is
`[0,0,0,0,0]`. -/
theorem C1_mask_not_finished_after_update {τ σ ctx : Type}
    (e : LoopEnv τ σ ctx) (tm : Bool) (t : Nat) (h : t < e.maxOutputLen) :
    (decodingLoop e tm).2.2[t]? =
      some (!(((decodingLoop e tm).1.take (t + 1)).any
        fun l => argmaxIdx l == e.endTokenIndex)) :=
  decodingLoop_mask_get e tm t h

theorem C1_mask_not_finished_after_update_witness :
    0 < envAllEnd.maxOutputLen ∧
    (decodingLoop envAllEnd true).2.2[0]? =
      some (!(((decodingLoop envAllEnd true).1.take 1).any
        fun l => argmaxIdx l == envAllEnd.endTokenIndex)) :=
  ⟨by decide, C1_mask_not_finished_after_update envAllEnd true 0 (by decide)⟩

/-- C3: per batch row and execution mode, writing the finished flag
after step `t` as the negation of the recorded mask entry: after step
`0` it equals the OR of the initial `false` with (argmax of step 0's
full logits == end-token index); after step `t+1` it equals the OR of
its previous value with (argmax of step `t+1`'s full logits ==
end-token index); and it is monotone non-decreasing (once true it
stays true). -/
theorem C3_finished_monotone_recurrence {τ σ ctx : Type}
    (e : LoopEnv τ σ ctx) (tm : Bool) (t : Nat)
    (mt mt1 m0 : Bool) (l l0 : List Int)
    (h1 : (decodingLoop e tm).2.2[t]? = some mt)
    (h2 : (decodingLoop e tm).2.2[t + 1]? = some mt1)
    (h3 : (decodingLoop e tm).1[t + 1]? = some l)
    (h4 : (decodingLoop e tm).2.2[0]? = some m0)
    (h5 : (decodingLoop e tm).1[0]? = some l0) :
    ((!mt1) = ((argmaxIdx l == e.endTokenIndex) || !mt)) ∧
    ((!mt) = true → (!mt1) = true) ∧
    ((!m0) = ((argmaxIdx l0 == e.endTokenIndex) || false)) := by
  have hmask : (decodingLoop e tm).2.2 =
      maskSpec e.endTokenIndex false (decodingLoop e tm).1 :=
    decodingLoopGo_mask_eq_maskSpec e tm e.maxOutputLen 0 none _ _ false
  rw [hmask] at h1 h2 h4
  have hlt1 : t + 1 < (decodingLoop e tm).1.length := by
    by_contra hge
    rw [List.getElem?_eq_none (by rw [maskSpec_length]; exact Nat.le_of_not_lt hge)] at h2
    exact Option.noConfusion h2
  have hlt : t < (decodingLoop e tm).1.length := Nat.lt_of_succ_lt hlt1
  have hlt0 : 0 < (decodingLoop e tm).1.length := Nat.lt_of_le_of_lt (Nat.zero_le t) hlt
  rw [maskSpec_get _ _ _ t hlt] at h1
  rw [maskSpec_get _ _ _ (t + 1) hlt1] at h2
  rw [maskSpec_get _ _ _ 0 hlt0] at h4
  have e1 := Option.some.inj h1
  have e2 := Option.some.inj h2
  have e4 := Option.some.inj h4
  have htake : (decodingLoop e tm).1.take (t + 1 + 1) =
      (decodingLoop e tm).1.take (t + 1) ++ [l] := by
    rw [List.take_succ, h3]
    rfl
  have htake0 : (decodingLoop e tm).1.take 1 = [l0] := by
    rw [List.take_succ, h5]
    rfl
  subst e1
  subst e2
  subst e4
  rw [htake0, htake]
  simp only [List.any_append, List.any_cons, List.any_nil, Bool.not_not]
  refine ⟨?_, ?_, ?_⟩
  · cases hb : ((decodingLoop e tm).1.take (t + 1)).any
        fun x => argmaxIdx x == e.endTokenIndex <;>
      cases hc : (argmaxIdx l == e.endTokenIndex) <;> simp
  · intro hmt
    simp only [Bool.false_or, Bool.not_not] at hmt
    simp [hmt]
  · simp

theorem C3_finished_monotone_recurrence_witness :
    ((decodingLoop envAllEnd false).2.2[0]? = some false ∧
     (decodingLoop envAllEnd false).2.2[1]? = some false ∧
     (decodingLoop envAllEnd false).1[1]? = some [0, 10] ∧
     (decodingLoop envAllEnd false).2.2[0]? = some false ∧
     (decodingLoop envAllEnd false).1[0]? = some [0, 10]) ∧
    (((!false) = ((argmaxIdx [0, 10] == envAllEnd.endTokenIndex) || !false)) ∧
     ((!false) = true → (!false) = true) ∧
     ((!false) = ((argmaxIdx [0, 10] == envAllEnd.endTokenIndex) || false))) :=
  ⟨⟨by decide, by decide, by decide, by decide, by decide⟩,
   C3_finished_monotone_recurrence envAllEnd false 0 false false false [0, 10] [0, 10]
     (by decide) (by decide) (by decide) (by decide) (by decide)⟩

/-- C4: the decoded token id at step `t` equals 1 plus the argmax of
the runtime logit row restricted to indices `[1, vocab_size)`; for a
row of vocabulary length `V ≥ 2` the decoded id lies in `[1, V)`, so
id 0 is never emitted by argmax-based decoding. -/
theorem C4_decoded_shifted_argmax_range
    (runtimeLogits : List (List Int)) (t : Nat) (l : List Int) (V : Nat)
    (h : runtimeLogits[t]? = some l) (hlen : l.length = V) (hV : 2 ≤ V) :
    (decoded runtimeLogits)[t]? = some (argmaxIdx (l.drop 1) + 1) ∧
    1 ≤ argmaxIdx (l.drop 1) + 1 ∧ argmaxIdx (l.drop 1) + 1 < V := by
  refine ⟨?_, Nat.succ_le_succ (Nat.zero_le _), ?_⟩
  · unfold decoded
    rw [List.getElem?_map, h]
    rfl
  · have hd : (l.drop 1).length = V - 1 := by
      rw [List.length_drop, hlen]
    have hne : l.drop 1 ≠ [] := by
      intro hnil
      rw [hnil] at hd
      simp at hd
      omega
    have := argmaxIdx_lt_length (l.drop 1) hne
    rw [hd] at this
    omega

theorem C4_decoded_shifted_argmax_range_witness :
    (([[0, 3, 1]] : List (List Int))[0]? = some [0, 3, 1] ∧
     ([0, 3, 1] : List Int).length = 3 ∧ 2 ≤ 3) ∧
    ((decoded [[0, 3, 1]])[0]? = some (argmaxIdx (([0, 3, 1] : List Int).drop 1) + 1) ∧
     1 ≤ argmaxIdx (([0, 3, 1] : List Int).drop 1) + 1 ∧
     argmaxIdx (([0, 3, 1] : List Int).drop 1) + 1 < 3) :=
  ⟨⟨by decide, by decide, by decide⟩,
   C4_decoded_shifted_argmax_range [[0, 3, 1]] 0 [0, 3, 1] 3
     (by decide) (by decide) (by decide)⟩

/-- C10: reading the `decoded` property of a constructed
`SequenceRegressor` reads the `decoded_logit` attribute, which no
constructor or method ever assigns, so the access raises an
`AttributeError` instead of returning the prediction tensor. -/
theorem C10_regressor_decoded_attribute_error :
    sequenceRegressorDecoded = PyAttrResult.attributeError "decoded_logit" := by
  decide

/-- C5: with the constructor's wiring, in both modes the step-0 input
of the decoding loop is the bare embedding lookup of the go symbol —
the dropout function is never applied to it — and the step-0 logits do
not depend on the execution mode, on the target tokens, or on the
dropout function (two wirings sharing only the lookup table agree). -/
theorem C5_step0_go_embedding_no_dropout {τ σ ctx : Type}
    (emb emb2 : EmbeddingEnv τ) (goSymbol : Nat)
    (trainTokens trainTokens2 : Nat → Nat)
    (stepF : τ → σ → List ctx → List Int × σ × List ctx)
    (s0 : σ) (a0 : List ctx) (T endIdx : Nat) (tm tm2 : Bool)
    (hT : 0 < T) (hl : emb.lookup = emb2.lookup) :
    (decodingLoop (mkLoopEnv emb goSymbol trainTokens stepF s0 a0 T endIdx) tm).1[0]? =
      some (stepF (emb.lookup goSymbol) s0 a0).1 ∧
    (decodingLoop (mkLoopEnv emb goSymbol trainTokens stepF s0 a0 T endIdx) tm).1[0]? =
      (decodingLoop (mkLoopEnv emb2 goSymbol trainTokens2 stepF s0 a0 T endIdx) tm2).1[0]? := by
  obtain ⟨n, rfl⟩ : ∃ n, T = n + 1 := ⟨T - 1, by omega⟩
  constructor
  · simp [decodingLoop, decodingLoopGo, mkLoopEnv]
  · simp [decodingLoop, decodingLoopGo, mkLoopEnv, hl]

/-- A concrete embedding wiring used to witness C5: the dropout
function visibly alters every embedding, so the step-0 logits reveal
that no dropout was applied to the go-symbol embedding. -/
def embWitness : EmbeddingEnv Int :=
  { lookup := fun i => Int.ofNat i
    dropoutF := fun x => x + 100 }

/-- The step function used to witness C5 and C9: the logits expose the
input so the fed embedding can be read off the outputs. -/
def stepWitness : Int → Unit → List Unit → List Int × Unit × List Unit :=
  fun x _ _ => ([x, 1 - x], (), [])

theorem C5_step0_go_embedding_no_dropout_witness :
    (0 < 1 ∧ embWitness.lookup = embWitness.lookup) ∧
    ((decodingLoop (mkLoopEnv embWitness 7 (fun i => i) stepWitness () [] 1 1) true).1[0]? =
       some (stepWitness (embWitness.lookup 7) () []).1 ∧
     (decodingLoop (mkLoopEnv embWitness 7 (fun i => i) stepWitness () [] 1 1) true).1[0]? =
       (decodingLoop (mkLoopEnv embWitness 7 (fun i => i + 2) stepWitness () [] 1 1) false).1[0]?) :=
  ⟨⟨by decide, rfl⟩,
   C5_step0_go_embedding_no_dropout embWitness embWitness 7 (fun i => i) (fun i => i + 2)
     stepWitness () [] 1 1 true false (by decide) rfl⟩

/-- C9: in free-running mode the embedding fed to step 1 is the
embed-and-dropout of the argmax of step 0's logits over the FULL
vocabulary range including index 0, while the decoded output of any
step excludes index 0 (it is always at least 1); on the concrete row
`[5, 1, 0]` the full argmax is 0 but the decoded token is 1, so the
token fed back differs from the decoded one. -/
theorem C9_feedback_full_argmax_differs_from_decoded {τ σ ctx : Type}
    (e : LoopEnv τ σ ctx) (hT : 2 ≤ e.maxOutputLen) :
    (decodingLoop e false).1[1]? =
      some (e.step
        (e.embedAndDropout (argmaxIdx (e.step e.goEmbedding e.initialState e.initialAttns).1))
        (e.step e.goEmbedding e.initialState e.initialAttns).2.1
        (e.step e.goEmbedding e.initialState e.initialAttns).2.2).1 ∧
    (∀ l : List Int, 1 ≤ decodedTok l) ∧
    argmaxIdx [5, 1, 0] = 0 ∧ decodedTok [5, 1, 0] = 1 ∧ (0 : Nat) ≠ 1 := by
  refine ⟨?_, fun l => Nat.succ_le_succ (Nat.zero_le _), by decide, by decide, by decide⟩
  obtain ⟨n, hn⟩ : ∃ n, e.maxOutputLen = n + 2 := ⟨e.maxOutputLen - 2, by omega⟩
  unfold decodingLoop
  rw [hn]
  simp [decodingLoopGo]

theorem C9_feedback_full_argmax_differs_from_decoded_witness :
    2 ≤ (mkLoopEnv embWitness 7 (fun i => i) stepWitness () [] 2 1).maxOutputLen ∧
    ((decodingLoop (mkLoopEnv embWitness 7 (fun i => i) stepWitness () [] 2 1) false).1[1]? =
       some ((mkLoopEnv embWitness 7 (fun i => i) stepWitness () [] 2 1).step
         ((mkLoopEnv embWitness 7 (fun i => i) stepWitness () [] 2 1).embedAndDropout
           (argmaxIdx ((mkLoopEnv embWitness 7 (fun i => i) stepWitness () [] 2 1).step
             (mkLoopEnv embWitness 7 (fun i => i) stepWitness () [] 2 1).goEmbedding () []).1))
         () []).1 ∧
     (∀ l : List Int, 1 ≤ decodedTok l) ∧
     argmaxIdx [5, 1, 0] = 0 ∧ decodedTok [5, 1, 0] = 1 ∧ (0 : Nat) ≠ 1) :=
  ⟨by decide,
   C9_feedback_full_argmax_differs_from_decoded
     (mkLoopEnv embWitness 7 (fun i => i) stepWitness () [] 2 1) (by decide)⟩

/-- A concrete step environment with attention disabled (no active
attention objects) and all configuration flags at their constructor
defaults (`attention_on_input = True`, `conditional_gru = False`,
`rnn_cell = GRU`, and the default output projection, which
`Decoder.step` never consults).  The trainable layers are instantiated
with simple integer functions. -/
def stepEnvNoAttn : StepEnv Int Int :=
  { cellStr := "GRU"
    conditionalGru := false
    attentionOnInput := true
    embeddingSize := 4
    rnnOutputSize := 4
    linear := fun xs _ => 1 + xs.sum
    cell := fun x s => (x + s, x + s)
    condGruCell := fun x s => (x, s)
    queryGru := fun s => s
    queryLstmC := fun s => s
    concatLast := fun xs => xs.sum
    logitFn := fun t => 10 * t
    attObjs := [] }

/-- C8 (counterexample): with attention disabled and the constructor's
default flags, the step is NOT the bare recurrent cell on the input
embedding followed by the logit layer: because `attention_on_input`
defaults to true, the input first passes through the learned
input-fusion linear layer (applied to the singleton list), so on input
0 and state 0 the step yields logits 10 while the bare cell plus logit
layer yields 0. -/
theorem C8_step_not_bare_cell_counterexample :
    stepEnvNoAttn.attObjs = [] ∧
    stepEnvNoAttn.step 0 0 [] =
      (Except.ok (10, 1, []) : Except String (Int × Int × List Int)) ∧
    ((10, 1, ([] : List Int)) : Int × Int × List Int) ≠
      (stepEnvNoAttn.logitFn (stepEnvNoAttn.cell 0 0).1,
       (stepEnvNoAttn.cell 0 0).2, ([] : List Int)) := by
  refine ⟨rfl, rfl, by decide⟩

/-- C8 (amended): with no active attention objects, the empty
attention-context list is threaded unchanged, no attention-context
concatenation occurs, and the cell output reaches the logit layer
unprojected; the step is exactly the bare recurrent cell on the step's
input embedding followed by the logit layer when `attention_on_input`
is false, while with the default `attention_on_input = true` the input
first passes through the learned input-fusion linear layer applied to
the singleton input list. -/
theorem C8_step_no_attention_reduction {τ σ : Type} (e : StepEnv τ σ)
    (input : τ) (st : σ)
    (hA : e.attObjs = []) (hc : e.conditionalGru = false)
    (hcell : e.cellStr = "GRU" ∨ e.cellStr = "LSTM") :
    (e.attentionOnInput = false →
      e.step input st [] =
        Except.ok (e.logitFn (e.cell input st).1, (e.cell input st).2, [])) ∧
    (e.attentionOnInput = true →
      e.step input st [] =
        Except.ok (e.logitFn (e.cell (e.linear [input] e.embeddingSize) st).1,
                   (e.cell (e.linear [input] e.embeddingSize) st).2, [])) := by
  constructor <;> intro hin <;>
    rcases hcell with h | h <;>
      simp [StepEnv.step, hA, hc, hin, h]

theorem C8_step_no_attention_reduction_witness :
    (stepEnvNoAttn.attObjs = [] ∧ stepEnvNoAttn.conditionalGru = false ∧
     (stepEnvNoAttn.cellStr = "GRU" ∨ stepEnvNoAttn.cellStr = "LSTM")) ∧
    ((stepEnvNoAttn.attentionOnInput = false →
       stepEnvNoAttn.step 0 0 [] =
         Except.ok (stepEnvNoAttn.logitFn (stepEnvNoAttn.cell 0 0).1,
                    (stepEnvNoAttn.cell 0 0).2, [])) ∧
     (stepEnvNoAttn.attentionOnInput = true →
       stepEnvNoAttn.step 0 0 [] =
         Except.ok (stepEnvNoAttn.logitFn
             (stepEnvNoAttn.cell (stepEnvNoAttn.linear [0] stepEnvNoAttn.embeddingSize) 0).1,
           (stepEnvNoAttn.cell (stepEnvNoAttn.linear [0] stepEnvNoAttn.embeddingSize) 0).2,
           []))) :=
  ⟨⟨rfl, rfl, Or.inl rfl⟩,
   C8_step_no_attention_reduction stepEnvNoAttn 0 0 rfl rfl (Or.inl rfl)⟩

/-- The configuration of the C2 scenario: `conditional_gru = True`
together with `rnn_cell = LSTM`, all other arguments well formed. -/
def cfgCondLstm : DecoderConfig Nat :=
  { encoders := [{ encodedWidth := 16 }]
    rnn_size := some 4
    embedding_size := some 8
    embeddings_source := none
    encoder_projection_given := false
    output_projection_given := false
    rnn_cell := "LSTM"
    conditional_gru := true }

/-- C2 (counterexample): constructing a decoder with
`conditional_gru = True` and `rnn_cell = LSTM` succeeds — the
constructor checks only that the cell kind is `GRU` or `LSTM` and
never cross-checks the conditional flag, so the combination is not
rejected with a configuration error. -/
theorem C2_cond_lstm_accepted_counterexample :
    cfgCondLstm.conditional_gru = true ∧ cfgCondLstm.rnn_cell = "LSTM" ∧
    (initDecoder (fun m => m) cfgCondLstm).isOk = true := by
  refine ⟨by decide, by decide, by decide⟩

/-- C2 (amended): `conditional_gru = True` with the LSTM cell kind is
silently accepted at construction (any configuration with a resolvable
embedding size and rnn size and cell kind `LSTM` constructs
successfully), and the conditional path is skipped: the step function
behaves exactly as if `conditional_gru` were false, because the
conditional branch additionally requires the `GRU` cell kind. -/
theorem C2_cond_lstm_silently_ignored {M τ σ : Type}
    (cols : M → Nat) (cfg : DecoderConfig M)
    (hcell : cfg.rnn_cell = "LSTM") (hcg : cfg.conditional_gru = true)
    (hemb : cfg.embedding_size.isSome ∨ cfg.embeddings_source.isSome)
    (hrs : cfg.rnn_size.isSome)
    (e : StepEnv τ σ) (he : e.cellStr = "LSTM")
    (input : τ) (st : σ) (pa : List τ) :
    (initDecoder cols cfg).isOk = true ∧
    e.step input st pa =
      StepEnv.step { e with conditionalGru := false } input st pa := by
  constructor
  · obtain ⟨encs, rs, es, src, epg, opg, rc, cg⟩ := cfg
    simp only at hcell hcg hemb hrs
    subst hcell
    rcases hrs' : rs with _ | n
    · rw [hrs'] at hrs; simp at hrs
    · rcases es with _ | k <;> rcases src with _ | s
      · simp at hemb
      · simp [initDecoder]
        rcases epg with _ | _ <;> rcases encs with _ | ⟨enc, encs⟩ <;>
          simp [Except.isOk, Except.toBool]
      · simp [initDecoder]
        rcases epg with _ | _ <;> rcases encs with _ | ⟨enc, encs⟩ <;>
          simp [Except.isOk, Except.toBool]
      · simp [initDecoder]
        rcases epg with _ | _ <;> rcases encs with _ | ⟨enc, encs⟩ <;>
          simp [Except.isOk, Except.toBool]
  · simp [StepEnv.step, he]

theorem C2_cond_lstm_silently_ignored_witness :
    (cfgCondLstm.rnn_cell = "LSTM" ∧ cfgCondLstm.conditional_gru = true ∧
     (cfgCondLstm.embedding_size.isSome ∨ cfgCondLstm.embeddings_source.isSome) ∧
     cfgCondLstm.rnn_size.isSome ∧
     ({ stepEnvNoAttn with cellStr := "LSTM", conditionalGru := true } :
        StepEnv Int Int).cellStr = "LSTM") ∧
    ((initDecoder (fun m => m) cfgCondLstm).isOk = true ∧
     ({ stepEnvNoAttn with cellStr := "LSTM", conditionalGru := true } :
        StepEnv Int Int).step 0 0 [] =
       StepEnv.step { stepEnvNoAttn with cellStr := "LSTM" } 0 0 []) :=
  ⟨⟨by decide, by decide, Or.inl (by decide), by decide, by decide⟩,
   C2_cond_lstm_silently_ignored (fun m => m) cfgCondLstm (by decide) (by decide)
     (Or.inl (by decide)) (by decide)
     ({ stepEnvNoAttn with cellStr := "LSTM", conditionalGru := true }) (by decide)
     0 0 []⟩

theorem length_flatten_replicate {α : Type} (b : Nat) (u : List α) :
    ((List.replicate b u).flatten).length = b * u.length := by
  induction b with
  | zero => simp
  | succ b ih =>
    rw [List.replicate_succ, List.flatten_cons, List.length_append, ih,
        Nat.succ_mul, Nat.add_comm]

/-- The configuration of the C6 scenario: two encoders of widths 3 and
4, no explicit `rnn_size`, no explicit encoder projection. -/
def cfgConcat : DecoderConfig Nat :=
  { encoders := [{ encodedWidth := 3 }, { encodedWidth := 4 }]
    rnn_size := none
    embedding_size := some 8
    embeddings_source := none
    encoder_projection_given := false
    output_projection_given := false
    rnn_cell := "GRU"
    conditional_gru := false }

/-- C6: with no explicit encoder projection, no explicit `rnn_size`
and a nonempty encoder list, construction resolves the concatenation
policy and sets `rnn_size` to the sum of the encoders' encoded-vector
widths; and a rank-1 projector result of size `rnn_size` is tiled over
the batch dimension, so the initial state has shape
`batch_size × rnn_size`. -/
theorem C6_concat_rnn_size_and_tiled_initial_state {M : Type}
    (cols : M → Nat) (cfg : DecoderConfig M)
    (h1 : cfg.encoder_projection_given = false)
    (h2 : cfg.rnn_size = none)
    (h3 : cfg.encoders ≠ [])
    (hemb : cfg.embedding_size.isSome ∨ cfg.embeddings_source.isSome)
    (hcell : cfg.rnn_cell = "GRU" ∨ cfg.rnn_cell = "LSTM")
    (rnnSize batchSize : Nat) (dropF : Int → Int) (v : List Int)
    (hv : v.length = rnnSize) (hr : 0 < rnnSize) :
    (∃ r, initDecoder cols cfg = Except.ok r ∧
       r.rnn_size = (cfg.encoders.map Encoder.encodedWidth).sum ∧
       r.encoder_projection = EncoderProjectionPolicy.concatEncoders) ∧
    (createInitialState rnnSize batchSize dropF (Tensor.rank1 v) =
       Except.ok (Tensor.rank2 (List.replicate batchSize (v.map dropF))) ∧
     (List.replicate batchSize (v.map dropF)).length = batchSize ∧
     ∀ row ∈ List.replicate batchSize (v.map dropF), row.length = rnnSize) := by
  have hmap : (v.map dropF).length = rnnSize := by rw [List.length_map]; exact hv
  constructor
  · obtain ⟨encs, rs, es, src, epg, opg, rc, cg⟩ := cfg
    simp only at h1 h2 h3 hemb hcell
    subst h1; subst h2
    rcases encs with _ | ⟨enc, encs⟩
    · exact absurd rfl h3
    · rcases es with _ | k <;> rcases src with _ | s
      · simp at hemb
      all_goals rcases hcell with h | h <;> subst h <;>
        exact ⟨_, rfl, rfl, rfl⟩
  · refine ⟨?_, by simp, ?_⟩
    · simp only [createInitialState, Tensor.emap]
      rw [if_pos hmap, length_flatten_replicate, hmap, Nat.mul_div_cancel _ hr,
          reshapeRows_flatten_replicate (v.map dropF) rnnSize hmap batchSize]
    · intro row hrow
      rw [List.eq_of_mem_replicate hrow]
      exact hmap

theorem C6_concat_rnn_size_and_tiled_initial_state_witness :
    (cfgConcat.encoder_projection_given = false ∧ cfgConcat.rnn_size = none ∧
     cfgConcat.encoders ≠ [] ∧
     (cfgConcat.embedding_size.isSome ∨ cfgConcat.embeddings_source.isSome) ∧
     (cfgConcat.rnn_cell = "GRU" ∨ cfgConcat.rnn_cell = "LSTM") ∧
     ([1, 2] : List Int).length = 2 ∧ 0 < 2) ∧
    ((∃ r, initDecoder (fun m => m) cfgConcat = Except.ok r ∧
        r.rnn_size = (cfgConcat.encoders.map Encoder.encodedWidth).sum ∧
        r.encoder_projection = EncoderProjectionPolicy.concatEncoders) ∧
     (createInitialState 2 3 (fun x => x) (Tensor.rank1 [1, 2]) =
        Except.ok (Tensor.rank2 (List.replicate 3 (([1, 2] : List Int).map fun x => x))) ∧
      (List.replicate 3 (([1, 2] : List Int).map fun x => x)).length = 3 ∧
      ∀ row ∈ List.replicate 3 (([1, 2] : List Int).map fun x => x), row.length = 2)) :=
  ⟨⟨rfl, rfl, by simp [cfgConcat], Or.inl rfl, Or.inl rfl, rfl, by decide⟩,
   C6_concat_rnn_size_and_tiled_initial_state (fun m => m) cfgConcat rfl rfl
     (by simp [cfgConcat]) (Or.inl rfl) (Or.inl rfl) 2 3 (fun x => x) [1, 2] rfl
     (by decide)⟩

theorem initDecoder_missing_iff {M : Type} (cols : M → Nat) (cfg : DecoderConfig M) :
    initDecoder cols cfg = Except.error DecoderError.missingEmbeddingInfo ↔
      (cfg.embedding_size = none ∧ cfg.embeddings_source = none) := by
  obtain ⟨encs, rs, es, src, epg, opg, rc, cg⟩ := cfg
  rcases es with _ | k <;> rcases src with _ | s
  · simp [initDecoder]
  all_goals
    cases epg <;> rcases encs with _ | ⟨enc, encs⟩ <;> rcases rs with _ | n <;>
      by_cases hc : (rc = "GRU" ∨ rc = "LSTM") <;>
        simp [initDecoder, hc]

theorem initDecoder_borrowed {M : Type} (cols : M → Nat) (cfg : DecoderConfig M)
    (s : EmbeddedSequence M) (r : ResolvedDecoder M)
    (hsrc : cfg.embeddings_source = some s)
    (hok : initDecoder cols cfg = Except.ok r) :
    r.embedding_matrix_source = some s.embedding_matrix ∧
    r.embedding_size = cols s.embedding_matrix ∧
    (cfg.embedding_size.isSome → r.warnings = [overrideWarning]) ∧
    (cfg.embedding_size = none → r.warnings = []) := by
  obtain ⟨encs, rs, es, src, epg, opg, rc, cg⟩ := cfg
  simp only at hsrc hok ⊢
  subst hsrc
  rcases es with _ | k
  all_goals cases epg
  all_goals rcases encs with _ | ⟨enc, encs⟩
  all_goals rcases rs with _ | n
  all_goals by_cases hc : (rc = "GRU" ∨ rc = "LSTM")
  all_goals simp [initDecoder, hc] at hok
  all_goals rw [← hok]
  all_goals simp

/-- C7: construction fails with the missing-embedding-information
configuration error exactly when neither `embedding_size` nor
`embeddings_source` is given; and when an `embeddings_source` is
given, the constructed decoder borrows that source's embedding matrix
itself, takes its embedding size from the matrix's second dimension,
and logs the override warning exactly when a local `embedding_size`
was also configured. -/
theorem C7_embedding_validation {M : Type} (cols : M → Nat)
    (cfg : DecoderConfig M) (s : EmbeddedSequence M) (r : ResolvedDecoder M) :
    (initDecoder cols cfg = Except.error DecoderError.missingEmbeddingInfo ↔
       (cfg.embedding_size = none ∧ cfg.embeddings_source = none)) ∧
    (cfg.embeddings_source = some s → initDecoder cols cfg = Except.ok r →
       r.embedding_matrix_source = some s.embedding_matrix ∧
       r.embedding_size = cols s.embedding_matrix ∧
       (cfg.embedding_size.isSome → r.warnings = [overrideWarning]) ∧
       (cfg.embedding_size = none → r.warnings = [])) :=
  ⟨initDecoder_missing_iff cols cfg,
   fun hsrc hok => initDecoder_borrowed cols cfg s r hsrc hok⟩

/-- The borrowed embeddings source of the C7 scenario; the abstract
matrix is represented by the identifier 42. -/
def sBorrow : EmbeddedSequence Nat := { embedding_matrix := 42 }

/-- The configuration of the C7 scenario: a borrowed embeddings source
together with a locally configured `embedding_size`. -/
def cfgBorrow : DecoderConfig Nat :=
  { encoders := [{ encodedWidth := 3 }]
    rnn_size := some 4
    embedding_size := some 99
    embeddings_source := some sBorrow
    encoder_projection_given := false
    output_projection_given := false
    rnn_cell := "GRU"
    conditional_gru := false }

/-- The decoder that `initDecoder` constructs from `cfgBorrow` with a
column function returning 16. -/
def rBorrow : ResolvedDecoder Nat :=
  { embedding_size := 16
    embedding_matrix_source := some 42
    rnn_size := 4
    encoder_projection := EncoderProjectionPolicy.linearEncoders
    uses_default_output_projection := true
    rnn_cell := "GRU"
    conditional_gru := false
    warnings := [overrideWarning] }

theorem C7_embedding_validation_witness :
    (cfgBorrow.embeddings_source = some sBorrow ∧
     initDecoder (fun _ => 16) cfgBorrow = Except.ok rBorrow) ∧
    ((initDecoder (fun _ => 16) cfgBorrow =
        Except.error DecoderError.missingEmbeddingInfo ↔
       (cfgBorrow.embedding_size = none ∧ cfgBorrow.embeddings_source = none)) ∧
     (cfgBorrow.embeddings_source = some sBorrow →
      initDecoder (fun _ => 16) cfgBorrow = Except.ok rBorrow →
        rBorrow.embedding_matrix_source = some sBorrow.embedding_matrix ∧
        rBorrow.embedding_size = 16 ∧
        (cfgBorrow.embedding_size.isSome → rBorrow.warnings = [overrideWarning]) ∧
        (cfgBorrow.embedding_size = none → rBorrow.warnings = []))) :=
  ⟨⟨rfl, rfl⟩, C7_embedding_validation (fun _ => 16) cfgBorrow sBorrow rBorrow⟩

end NeuralMonkey
